import Mathlib

/-!
Shallow embedding of the gtk-weekly-report core (src/models.py,
src/data_manager.py, src/report_generator.py) and proofs about it.

Modelling conventions:
* A Python `datetime` is modelled by `PyDateTime`: `day` is the local
  calendar date as a count of days from a fixed epoch chosen to be a
  Monday (so `weekday(d) = d % 7`, matching Python's `date.weekday()`
  which returns 0 for Monday), and `minute` is the time of day.
  `datetime.isoformat` / `datetime.fromisoformat` are inverse bijections
  in Python, so the ISO string stored in a serialized dict is identified
  with the instant it encodes.
* A Python `dict` used as a record with possibly-missing keys is a
  structure with `Option` fields (`none` = key absent or `None`);
  `dict.get(k, d)` becomes `Option.getD`.
* `self.project_mappings` is a `dict` keyed by project name; Python
  dicts preserve insertion order and have unique keys, so it is an
  association list and updates rewrite the first (unique) binding.
* Python's case-insensitive substring test `a.lower() in b.lower()` is
  `(String.toLower a).data <:+: (String.toLower b).data`.
-/

namespace WeeklyReport

/-- Model of a Python `datetime`: local calendar day (days since a fixed
Monday epoch) and minute of day. -/
structure PyDateTime where
  day : Int
  minute : Nat
deriving Repr, DecidableEq

/-- Python's `str.lower()`: lower-case every character.  (Defined on the
character list so that it evaluates by kernel reduction.) -/
def lower (s : String) : String :=
  ⟨s.data.map Char.toLower⟩

/-- Python's `pattern in text` substring test. -/
def strIn (pat text : String) : Bool :=
  decide (pat.data <:+: text.data)

/-- `pattern.lower() in text.lower()` -/
def strInCI (pat text : String) : Bool :=
  strIn (lower pat) (lower text)

/-- `WorkEntry` from src/models.py. -/
structure WorkEntry where
  timestamp : PyDateTime
  ticket : String
  project : String
  details : String := ""
  duration : Nat := 60
deriving Repr, DecidableEq

/-- `ProjectMapping` from src/models.py. -/
structure ProjectMapping where
  ticket_patterns : List String := []
  name : String := ""
deriving Repr, DecidableEq

/-- `AppState` from src/models.py.  `project_mappings` is a Python dict
(insertion-ordered, unique keys), modelled as an association list. -/
structure AppState where
  current_ticket : Option String := none
  current_project : Option String := none
  current_details : Option String := none
  last_activity : Option PyDateTime := none
  work_entries : List WorkEntry := []
  project_mappings : List (String × ProjectMapping) := []
deriving Repr, DecidableEq

/-- The dict produced by `WorkEntry.to_dict` / consumed by
`WorkEntry.from_dict`.  `details` and `duration` are read with
`dict.get` defaults, hence `Option`. -/
structure EntryDict where
  timestamp : PyDateTime
  ticket : String
  project : String
  details : Option String
  duration : Option Nat
deriving Repr, DecidableEq

/-- The dict produced by `ProjectMapping.to_dict`. -/
structure MappingDict where
  ticket_patterns : Option (List String)
  name : Option String
deriving Repr, DecidableEq

/-- The dict produced by `AppState.to_dict`. -/
structure StateDict where
  current_ticket : Option String
  current_project : Option String
  current_details : Option String
  last_activity : Option PyDateTime
  work_entries : Option (List EntryDict)
  project_mappings : Option (List (String × MappingDict))
deriving Repr, DecidableEq

/-- `WorkEntry.to_dict` (src/models.py lines 15-22). -/
def WorkEntry.to_dict (e : WorkEntry) : EntryDict :=
  { timestamp := e.timestamp
    ticket := e.ticket
    project := e.project
    details := some e.details
    duration := some e.duration }

/-- `WorkEntry.from_dict` (src/models.py lines 24-32). -/
def WorkEntry.from_dict (d : EntryDict) : WorkEntry :=
  { timestamp := d.timestamp
    ticket := d.ticket
    project := d.project
    details := d.details.getD ""
    duration := d.duration.getD 60 }

/-- `ProjectMapping.to_dict` (src/models.py lines 40-44). -/
def ProjectMapping.to_dict (m : ProjectMapping) : MappingDict :=
  { ticket_patterns := some m.ticket_patterns
    name := some m.name }

/-- `ProjectMapping.from_dict` (src/models.py lines 46-51). -/
def ProjectMapping.from_dict (d : MappingDict) : ProjectMapping :=
  { ticket_patterns := d.ticket_patterns.getD []
    name := d.name.getD "" }

/-- `AppState.to_dict` (src/models.py lines 63-71). -/
def AppState.to_dict (s : AppState) : StateDict :=
  { current_ticket := s.current_ticket
    current_project := s.current_project
    current_details := s.current_details
    last_activity := s.last_activity
    work_entries := some (s.work_entries.map WorkEntry.to_dict)
    project_mappings := some (s.project_mappings.map fun kv => (kv.1, kv.2.to_dict)) }

/-- `AppState.from_dict` (src/models.py lines 73-82). -/
def AppState.from_dict (d : StateDict) : AppState :=
  { current_ticket := d.current_ticket
    current_project := d.current_project
    current_details := d.current_details
    last_activity := d.last_activity
    work_entries := (d.work_entries.getD []).map WorkEntry.from_dict
    project_mappings := (d.project_mappings.getD []).map fun kv => (kv.1, ProjectMapping.from_dict kv.2) }

/-- `AppState.get_week_entries_with_offset` (src/models.py lines 95-109).
`today` is `date.today()`; `today % 7` is `today.weekday()` under the
Monday-epoch convention. -/
def AppState.get_week_entries_with_offset (s : AppState) (today week_offset : Int) :
    List WorkEntry :=
  let current_week_start := today - today % 7
  let target_week_start := current_week_start + 7 * week_offset
  let target_week_end := target_week_start + 6
  s.work_entries.filter fun e =>
    decide (target_week_start ≤ e.timestamp.day) && decide (e.timestamp.day ≤ target_week_end)

/-- `AppState.auto_detect_project` (src/models.py lines 111-117): scan the
mappings in insertion order, return the first project one of whose
patterns is a case-insensitive substring of the ticket. -/
def auto_detect_scan (ticket : String) : List (String × ProjectMapping) → Option String
  | [] => none
  | (project, m) :: rest =>
    if m.ticket_patterns.any (fun pat => strInCI pat ticket) then some project
    else auto_detect_scan ticket rest

/-- `AppState.auto_detect_project` entry point. -/
def AppState.auto_detect_project (s : AppState) (ticket : String) : Option String :=
  auto_detect_scan ticket s.project_mappings

/-- `ticket.split('-')[0] if '-' in ticket else ticket[:3]`
(src/models.py line 138). -/
def ticketPrefixOf (ticket : String) : String :=
  if ticket.data.contains '-' then ⟨ticket.data.takeWhile (fun c => c != '-')⟩
  else ⟨ticket.data.take 3⟩

/-- Rewrite the (unique) binding of `project`, appending `pat` to its
pattern list when absent (src/models.py lines 139-140). -/
def appendPattern (project pat : String) :
    List (String × ProjectMapping) → List (String × ProjectMapping)
  | [] => []
  | (q, m) :: rest =>
    if q == project then
      (q, if m.ticket_patterns.contains pat then m
          else { m with ticket_patterns := m.ticket_patterns ++ [pat] }) :: rest
    else (q, m) :: appendPattern project pat rest

/-- `AppState.add_work_entry` (src/models.py lines 119-140).  `now` is
`datetime.now()`, passed explicitly. -/
def AppState.add_work_entry (s : AppState) (now : PyDateTime)
    (ticket project : String) (details : String := "") : AppState :=
  let entry : WorkEntry :=
    { timestamp := now, ticket := ticket, project := project, details := details }
  let mappings0 :=
    if (s.project_mappings.lookup project).isSome then s.project_mappings
    else s.project_mappings ++ [(project, { name := project })]
  { s with
    work_entries := s.work_entries ++ [entry]
    current_ticket := some ticket
    current_project := some project
    current_details := some details
    last_activity := some entry.timestamp
    project_mappings := appendPattern project (ticketPrefixOf ticket) mappings0 }

/-- The pattern list recorded for `project` (empty when no mapping). -/
def patternsOf (s : AppState) (project : String) : List String :=
  ((s.project_mappings.lookup project).map ProjectMapping.ticket_patterns).getD []

/-! ## Report renderer (src/report_generator.py)

The renderer builds a markdown string; the model captures the rendered
content structurally.  Hour figures are produced by Python's true
division `minutes / 60` and formatted with `%.1f`; they are modelled as
the exact rational `minutes / 60` (the `%.1f` rendering is exact for
every figure the claims mention). -/

/-- Python's `sorted` on strings: ascending lexicographic
(code-point) order. -/
def sortStrings (l : List String) : List String :=
  l.insertionSort (fun a b => a ≤ b)

/-- Hours figure shown for a duration in minutes: `minutes / 60`. -/
def hoursShown (minutes : Nat) : ℚ :=
  (minutes : ℚ) / 60

/-- One `### <ticket>` subsection of a project section
(src/report_generator.py lines 146-171). -/
structure TicketSection where
  ticket : String
  totalMinutes : Nat
  sessions : Nat
  details : List String
deriving Repr, DecidableEq

/-- One `## <project>` section (src/report_generator.py lines 137-173). -/
structure ProjectSection where
  name : String
  totalMinutes : Nat
  tickets : List TicketSection
deriving Repr, DecidableEq

/-- The rendered report content relevant to the executive summary and
project sections (src/report_generator.py lines 76-113). -/
structure ReportContent where
  totalMinutes : Nat
  totalEntries : Nat
  numProjects : Nat
  sections : List ProjectSection
deriving Repr, DecidableEq

/-- The ticket subsection built from the entries of one project
(src/report_generator.py lines 146-171): the group's entries in order,
their accumulated minutes, the session count, and the sorted
deduplicated non-empty detail strings. -/
def mkTicketSection (projEntries : List WorkEntry) (t : String) : TicketSection :=
  let tes := projEntries.filter fun e => e.ticket == t
  { ticket := t
    totalMinutes := (tes.map WorkEntry.duration).sum
    sessions := tes.length
    details := sortStrings (((tes.map WorkEntry.details).filter fun d => d != "").eraseDups) }

/-- The project section (src/report_generator.py `_create_project_section`
together with the grouping of `_group_entries_by_project`): entries of
the project in order, total minutes, and one ticket subsection per
distinct ticket, in ascending ticket order. -/
def mkProjectSection (entries : List WorkEntry) (p : String) : ProjectSection :=
  let pes := entries.filter fun e => e.project == p
  { name := p
    totalMinutes := (pes.map WorkEntry.duration).sum
    tickets := (sortStrings ((pes.map WorkEntry.ticket).eraseDups)).map (mkTicketSection pes) }

/-- `_create_report_content` (src/report_generator.py lines 76-113):
executive summary totals plus one section per project in first-seen
order. -/
def createReportContent (entries : List WorkEntry) : ReportContent :=
  let projs := (entries.map WorkEntry.project).eraseDups
  { totalMinutes := (entries.map WorkEntry.duration).sum
    totalEntries := entries.length
    numProjects := projs.length
    sections := projs.map (mkProjectSection entries) }

/-! ## State store (src/data_manager.py) -/

/-- `test_patterns` (src/data_manager.py lines 135-138). -/
def test_patterns : List String :=
  ["test", "demo", "example", "sample", "mock", "fake", "dummy",
   "added via status script", "added via script", "via script"]

/-- An entry matches the test markers when some pattern occurs
case-insensitively in its ticket, project or details
(src/data_manager.py lines 139-145). -/
def entryIsTest (e : WorkEntry) : Bool :=
  test_patterns.any fun pat =>
    strInCI pat e.ticket || strInCI pat e.project || strInCI pat e.details

/-- The in-progress pointer matches the test markers: `current_ticket`
is truthy (set and non-empty) and some pattern occurs in it or in
`current_project or ""` (src/data_manager.py lines 148-151). -/
def currentIsTest (s : AppState) : Bool :=
  match s.current_ticket with
  | none => false
  | some ct =>
    ct != "" && test_patterns.any fun pat =>
      strInCI pat ct || strInCI pat (s.current_project.getD "")

/-- A project mapping matches the test markers when some pattern occurs
in the project name (src/data_manager.py lines 158-161). -/
def projectIsTest (project : String) : Bool :=
  test_patterns.any fun pat => strInCI pat project

/-- Result of `DataManager.cleanup_test_data`: the mutated state, the
returned count, and whether `_save_data` was called. -/
structure CleanupResult where
  state : AppState
  removed : Nat
  saved : Bool
deriving Repr, DecidableEq

/-- `DataManager.cleanup_test_data` (src/data_manager.py lines 127-171).
The method mutates sequentially — filter `work_entries`, clear the
current pointer when it matches, delete matching mappings — and each
step reads only fields the earlier steps did not change, so the result
is written as one record. -/
def cleanup_test_data (s : AppState) : CleanupResult :=
  let kept := s.work_entries.filter fun e => !entryIsTest e
  let cleared := currentIsTest s
  { state :=
      { current_ticket := if cleared then none else s.current_ticket
        current_project := if cleared then none else s.current_project
        current_details := if cleared then none else s.current_details
        last_activity := if cleared then none else s.last_activity
        work_entries := kept
        project_mappings := s.project_mappings.filter fun kv => !projectIsTest kv.1 }
    removed := s.work_entries.length - kept.length
    saved := decide (0 < s.work_entries.length - kept.length) }

/-- `DataManager.update_current_work` (src/data_manager.py lines 71-82):
each field is overwritten only when the argument is not `None`. -/
def update_current_work (s : AppState)
    (ticket project details : Option String) : AppState :=
  { s with
    current_ticket := match ticket with | some t => some t | none => s.current_ticket
    current_project := match project with | some p => some p | none => s.current_project
    current_details := match details with | some d => some d | none => s.current_details }

/-- `DataManager.stop_current_work` (src/data_manager.py lines 84-89). -/
def stop_current_work (s : AppState) : AppState :=
  { s with current_ticket := none, current_project := none, current_details := none }

/-- Ways the persisted state file can be corrupt for `_load_data`: the
three exception classes its `except` clause catches
(src/data_manager.py line 33). -/
inductive CorruptKind where
  /-- `json.JSONDecodeError`: the file is not valid JSON. -/
  | invalidJson
  /-- `KeyError`: a required entry key (`timestamp`, `ticket`,
  `project`) is missing. -/
  | missingKey
  /-- `ValueError`: a value is invalid, e.g. a malformed ISO-8601
  timestamp string. -/
  | invalidValue
deriving Repr, DecidableEq

/-- Contents of the persisted state file as seen by `_load_data`:
either it deserializes to a state dict, or reading it raises one of the
caught exceptions. -/
inductive FileContent where
  | valid (d : StateDict)
  | corrupt (k : CorruptKind)
deriving Repr, DecidableEq

/-- The two file paths `_load_data` touches: `database.json` and the
`.json.backup` path next to it.  `none` means the file does not exist. -/
structure DataFiles where
  dataFile : Option FileContent
  backupFile : Option FileContent
deriving Repr, DecidableEq

/-- `DataManager._load_data` (src/data_manager.py lines 23-43), with
`_save_data` inlined as a write of the serialized state.  Total
function: within the modelled corruption kinds, no exception escapes to
the caller. -/
def load_data (fs : DataFiles) : AppState × DataFiles :=
  match fs.dataFile with
  | none =>
    let st : AppState := {}
    (st, { fs with dataFile := some (.valid st.to_dict) })
  | some (.valid d) => (AppState.from_dict d, fs)
  | some (.corrupt k) =>
    let st : AppState := {}
    (st, { dataFile := some (.valid st.to_dict), backupFile := some (.corrupt k) })

/-- One call into the Store's mutating API.  `add` carries the
`datetime.now()` instant. -/
inductive Op where
  | add (now : PyDateTime) (ticket project details : String)
  | update (ticket project details : Option String)
  | stop
  | cleanup
deriving Repr, DecidableEq

/-- Effect of one Store operation on the in-memory state
(src/data_manager.py lines 66-89 and 127-171). -/
def stepOp (s : AppState) : Op → AppState
  | .add now t p d => s.add_work_entry now t p d
  | .update t p d => update_current_work s t p d
  | .stop => stop_current_work s
  | .cleanup => (cleanup_test_data s).state

/-- The state reached from the default state by a sequence of Store
operations. -/
def reach (ops : List Op) : AppState :=
  ops.foldl stepOp {}

/-- An `update_current_work` call that supplies a ticket also supplies a
project; every other operation is unrestricted. -/
def opKeepsSession : Op → Bool
  | .update t p _ => !t.isSome || p.isSome
  | _ => true

/-! ## Serialization round-trip lemmas -/

theorem WorkEntry.entry_from_to_dict (e : WorkEntry) : WorkEntry.from_dict e.to_dict = e := rfl

theorem ProjectMapping.mapping_from_to_dict (m : ProjectMapping) :
    ProjectMapping.from_dict m.to_dict = m := rfl

theorem map_entry_from_to (l : List WorkEntry) :
    l.map (WorkEntry.from_dict ∘ WorkEntry.to_dict) = l := by
  induction l with
  | nil => rfl
  | cons e t ih => simp [ih, WorkEntry.entry_from_to_dict, Function.comp]

theorem map_mapping_from_to (l : List (String × ProjectMapping)) :
    l.map ((fun kv => (kv.1, ProjectMapping.from_dict kv.2)) ∘
      fun kv : String × ProjectMapping => (kv.1, kv.2.to_dict)) = l := by
  induction l with
  | nil => rfl
  | cons kv t ih => simp [ih, ProjectMapping.mapping_from_to_dict, Function.comp]

/-- C5: deserializing the serialization of any `AppState` yields an
equal state — same entries in the same order, same mappings, same
current-session fields. -/
theorem C5_roundtrip (s : AppState) : AppState.from_dict s.to_dict = s := by
  cases s with
  | mk ct cp cd la we pm =>
    simp [AppState.to_dict, AppState.from_dict, map_entry_from_to, map_mapping_from_to]

/-- C6: when the persisted state file exists but is corrupt (invalid
JSON, a missing required key, or an invalid value — the exception
classes `_load_data` catches), loading backs the corrupt file up,
persists a fresh default state, and returns normally (the model is a
total function: none of these conditions escapes to the caller). -/
theorem C6_corrupt_recovery (k : CorruptKind) (b : Option FileContent) :
    load_data { dataFile := some (.corrupt k), backupFile := b } =
      (({} : AppState),
        { dataFile := some (.valid (AppState.to_dict {})),
          backupFile := some (.corrupt k) }) := rfl

/-! ## Adding a work entry (C1) -/

theorem lookup_append_of_none {β : Type} (l₁ l₂ : List (String × β)) (a : String)
    (h : l₁.lookup a = none) : (l₁ ++ l₂).lookup a = l₂.lookup a := by
  induction l₁ with
  | nil => rfl
  | cons kv t ih =>
    obtain ⟨k, v⟩ := kv
    by_cases hk : a = k
    · subst hk; simp [List.lookup] at h
    · rw [List.cons_append]
      simp only [List.lookup_cons, beq_false_of_ne hk] at h ⊢
      exact ih h

theorem lookup_appendPattern (l : List (String × ProjectMapping)) (p pre : String) :
    (appendPattern p pre l).lookup p =
      (l.lookup p).map fun m =>
        if m.ticket_patterns.contains pre then m
        else { m with ticket_patterns := m.ticket_patterns ++ [pre] } := by
  induction l with
  | nil => rfl
  | cons kv t ih =>
    obtain ⟨q, m⟩ := kv
    by_cases hq : q = p
    · subst hq; simp [appendPattern, List.lookup]
    · simp [appendPattern, beq_false_of_ne hq, List.lookup,
        beq_false_of_ne (Ne.symm hq), ih]

theorem add_work_entry_mappings (s : AppState) (now : PyDateTime) (t p d : String) :
    (s.add_work_entry now t p d).project_mappings =
      appendPattern p (ticketPrefixOf t)
        (if (s.project_mappings.lookup p).isSome then s.project_mappings
         else s.project_mappings ++ [(p, ({ name := p } : ProjectMapping))]) := rfl

/-- Pattern list of `project` after `add_work_entry`: the old list with
the derived prefix appended exactly when it was absent. -/
theorem patternsOf_add (s : AppState) (now : PyDateTime) (t p d : String) :
    patternsOf (s.add_work_entry now t p d) p =
      if (patternsOf s p).contains (ticketPrefixOf t) then patternsOf s p
      else patternsOf s p ++ [ticketPrefixOf t] := by
  unfold patternsOf
  rw [add_work_entry_mappings, lookup_appendPattern]
  cases hl : s.project_mappings.lookup p with
  | some m =>
    simp only [hl, Option.isSome_some, if_true, Option.map_some', Option.map_map,
      Option.getD_some]
    by_cases hc : ticketPrefixOf t ∈ m.ticket_patterns <;> simp [hc]
  | none =>
    have hl2 : ((s.project_mappings ++ [(p, ({ name := p } : ProjectMapping))]).lookup p) =
        some { name := p } := by
      rw [lookup_append_of_none _ _ _ hl]
      simp [List.lookup]
    simp [hl, hl2, ProjectMapping.ticket_patterns]

theorem mem_patternsOf_add (s : AppState) (now : PyDateTime) (t p d : String) :
    ticketPrefixOf t ∈ patternsOf (s.add_work_entry now t p d) p := by
  rw [patternsOf_add]
  by_cases hc : ticketPrefixOf t ∈ patternsOf s p <;> simp [hc]

/-- C1: `add_work_entry(ticket, project, details)` appends exactly one
entry with duration 60 and the given instant, sets the three
current-session fields and `last_activity`, and appends the derived
ticket-prefix to the project's pattern list exactly when it is absent;
in particular `add_work_entry("BUG-42", "Alpha", "")` sets
`current_ticket = "BUG-42"`, `current_project = "Alpha"` and records
pattern `"BUG"` for `"Alpha"`. -/
theorem C1_add_work_entry (s : AppState) (now : PyDateTime) (t p d : String) :
    ((s.add_work_entry now t p d).work_entries =
        s.work_entries ++
          [{ timestamp := now, ticket := t, project := p, details := d, duration := 60 }])
    ∧ (s.add_work_entry now t p d).current_ticket = some t
    ∧ (s.add_work_entry now t p d).current_project = some p
    ∧ (s.add_work_entry now t p d).current_details = some d
    ∧ (s.add_work_entry now t p d).last_activity = some now
    ∧ (patternsOf (s.add_work_entry now t p d) p =
        if (patternsOf s p).contains (ticketPrefixOf t) then patternsOf s p
        else patternsOf s p ++ [ticketPrefixOf t])
    ∧ ticketPrefixOf t ∈ patternsOf (s.add_work_entry now t p d) p
    ∧ (s.add_work_entry now "BUG-42" "Alpha" "").current_ticket = some "BUG-42"
    ∧ (s.add_work_entry now "BUG-42" "Alpha" "").current_project = some "Alpha"
    ∧ "BUG" ∈ patternsOf (s.add_work_entry now "BUG-42" "Alpha" "") "Alpha" := by
  refine ⟨rfl, rfl, rfl, rfl, rfl, patternsOf_add s now t p d,
    mem_patternsOf_add s now t p d, rfl, rfl, ?_⟩
  have h := mem_patternsOf_add s now "BUG-42" "Alpha" ""
  have hpre : ticketPrefixOf "BUG-42" = "BUG" := by decide
  rwa [hpre] at h

/-! ## Auto-detection (C4, C10) -/

theorem mem_of_lookup {β : Type} (l : List (String × β)) (a : String) (b : β)
    (h : l.lookup a = some b) : (a, b) ∈ l := by
  induction l with
  | nil => simp [List.lookup] at h
  | cons kv t ih =>
    obtain ⟨k, v⟩ := kv
    by_cases hk : a = k
    · subst hk
      simp [List.lookup] at h
      simp [h]
    · simp only [List.lookup_cons, beq_false_of_ne hk] at h
      exact List.mem_cons_of_mem _ (ih h)

/-- The nested-loop scan of `auto_detect_project` returns the first
mapping, in insertion order, with a case-insensitively matching
pattern. -/
theorem scan_eq_find (t : String) (l : List (String × ProjectMapping)) :
    auto_detect_scan t l =
      (l.find? fun kv => kv.2.ticket_patterns.any fun pat => strInCI pat t).map Prod.fst := by
  induction l with
  | nil => rfl
  | cons kv rest ih =>
    by_cases h : kv.2.ticket_patterns.any (fun pat => strInCI pat t) = true
    · obtain ⟨q, m⟩ := kv
      simp only [auto_detect_scan, List.find?_cons_of_pos _ h] at h ⊢
      simp [h]
    · obtain ⟨q, m⟩ := kv
      simp only [Bool.not_eq_true] at h
      have h2 : ¬((fun kv : String × ProjectMapping =>
          kv.2.ticket_patterns.any fun pat => strInCI pat t) (q, m) = true) := by
        simp only [h, Bool.false_eq_true, not_false_eq_true]
      rw [List.find?_cons_of_neg rest h2]
      simp [auto_detect_scan, h, ih]

/-- C4: `auto_detect_project` returns the first project in
mapping-insertion order with a pattern that occurs case-insensitively
in the ticket, and `none` exactly when no mapping has such a pattern;
with mapping `{"Alpha": ["BUG"]}` it returns `"Alpha"` for `"BUG-99"`
and no match for `"TASK-1"`. -/
theorem C4_auto_detect (s : AppState) (t : String) :
    (s.auto_detect_project t =
      (s.project_mappings.find? fun kv =>
        kv.2.ticket_patterns.any fun pat => strInCI pat t).map Prod.fst)
    ∧ (s.auto_detect_project t = none ↔
        (s.project_mappings.all fun kv =>
          !(kv.2.ticket_patterns.any fun pat => strInCI pat t)) = true)
    ∧ AppState.auto_detect_project
        { project_mappings := [("Alpha", { ticket_patterns := ["BUG"], name := "Alpha" })] }
        "BUG-99" = some "Alpha"
    ∧ AppState.auto_detect_project
        { project_mappings := [("Alpha", { ticket_patterns := ["BUG"], name := "Alpha" })] }
        "TASK-1" = none := by
  refine ⟨scan_eq_find t s.project_mappings, ?_, by decide, by decide⟩
  rw [AppState.auto_detect_project, scan_eq_find]
  simp [Option.map_eq_none', List.find?_eq_none, List.all_eq_true]

theorem strInCI_empty (t : String) : strInCI "" t = true := by
  simp only [strInCI, strIn, lower, decide_eq_true_eq]
  exact List.nil_infix

/-- C10: `add_work_entry` with an empty ticket stores `""` as a pattern
of the project, after which auto-detection matches every ticket string
(the empty pattern is a substring of everything); from the default
state it returns the project itself. -/
theorem C10_empty_pattern (s : AppState) (now : PyDateTime) (p d t : String) :
    ("" ∈ patternsOf (s.add_work_entry now "" p d) p)
    ∧ ((s.add_work_entry now "" p d).auto_detect_project t).isSome = true
    ∧ (({} : AppState).add_work_entry now "" p d).auto_detect_project t = some p := by
  have hpre : ticketPrefixOf "" = "" := by decide
  have hmem : "" ∈ patternsOf (s.add_work_entry now "" p d) p := by
    have h := mem_patternsOf_add s now "" p d
    rwa [hpre] at h
  refine ⟨hmem, ?_, ?_⟩
  · rw [AppState.auto_detect_project, scan_eq_find, Option.isSome_map']
    rw [List.find?_isSome]
    unfold patternsOf at hmem
    cases hl : (s.add_work_entry now "" p d).project_mappings.lookup p with
    | none => rw [hl] at hmem; simp at hmem
    | some m =>
      rw [hl] at hmem
      simp only [Option.map_some', Option.getD_some] at hmem
      exact ⟨(p, m), mem_of_lookup _ _ _ hl,
        by simp [List.any_eq_true]; exact ⟨"", hmem, strInCI_empty t⟩⟩
  · simp [AppState.auto_detect_project, add_work_entry_mappings, appendPattern,
      auto_detect_scan, List.lookup, strInCI_empty, hpre]

/-! ## Weekly filtering (C2) -/

/-- C2: `get_week_entries_with_offset(offset)` keeps exactly the
entries whose local date lies in the inclusive Monday–Sunday range of
the week `offset` weeks from the current one.  The target Monday is the
current week's Monday (`today - today.weekday()`, a day `≡ 0 (mod 7)`
lying at most 6 days before today) plus `7 * offset` days; dates
`targetMonday` and `targetMonday + 6` are inside the range, and
`targetMonday + 7` (the following Monday) is outside it. -/
theorem C2_week_filter (s : AppState) (today week_offset : Int) (e : WorkEntry) :
    (e ∈ s.get_week_entries_with_offset today week_offset ↔
      e ∈ s.work_entries ∧
        today - today % 7 + 7 * week_offset ≤ e.timestamp.day ∧
        e.timestamp.day ≤ today - today % 7 + 7 * week_offset + 6)
    ∧ (today - today % 7) % 7 = 0
    ∧ today - today % 7 ≤ today
    ∧ today ≤ today - today % 7 + 6
    ∧ (today - today % 7 + 7 * week_offset) % 7 = 0 := by
  refine ⟨?_, by omega, by omega, by omega, by omega⟩
  unfold AppState.get_week_entries_with_offset
  simp only [List.mem_filter, Bool.and_eq_true, decide_eq_true_eq]

/-! ## Session invariant over Store operations (C7) -/

/-- The spec's session invariant: a set `current_ticket` implies a set
`current_project`. -/
def sessionInv (s : AppState) : Prop :=
  s.current_ticket.isSome = true → s.current_project.isSome = true

theorem sessionInv_step (s : AppState) (op : Op) (hs : sessionInv s)
    (hop : opKeepsSession op = true) : sessionInv (stepOp s op) := by
  cases op with
  | add now t p d => intro _; rfl
  | update t p d =>
    cases t with
    | none =>
      cases p with
      | none => exact fun h => hs h
      | some pv => intro _; rfl
    | some tv =>
      cases p with
      | none => simp [opKeepsSession] at hop
      | some pv => intro _; rfl
  | stop => intro h; simp [stepOp, stop_current_work] at h
  | cleanup =>
    intro h
    simp only [stepOp, cleanup_test_data] at h ⊢
    by_cases hc : currentIsTest s
    · simp [hc] at h
    · simp only [hc, if_false] at h ⊢
      exact hs h

theorem sessionInv_foldl (ops : List Op) (s : AppState) (hs : sessionInv s)
    (hops : ∀ op ∈ ops, opKeepsSession op = true) :
    sessionInv (ops.foldl stepOp s) := by
  induction ops generalizing s with
  | nil => exact hs
  | cons op rest ih =>
    exact ih (stepOp s op) (sessionInv_step s op hs (hops op (List.mem_cons_self op rest)))
      fun o ho => hops o (List.mem_cons_of_mem op ho)

/-- C7 counterexample: `update_current_work(ticket="X")` from the
default state yields a state with `current_ticket` set and
`current_project` unset, so the invariant does not hold for every
sequence of Store operations. -/
theorem C7_counterexample :
    ¬((reach [Op.update (some "X") none none]).current_ticket.isSome = true →
      (reach [Op.update (some "X") none none]).current_project.isSome = true) := by
  decide

/-- C7 amended: for every sequence of Store operations from the default
state in which each `update_current_work` call that supplies a ticket
also supplies a project, a set `current_ticket` implies a set
`current_project`. -/
theorem C7_amended (ops : List Op) (hops : ops.all opKeepsSession = true)
    (ht : (reach ops).current_ticket.isSome = true) :
    (reach ops).current_project.isSome = true := by
  have h := sessionInv_foldl ops {} (fun h => absurd h (by decide))
    (fun op ho => List.all_eq_true.mp hops op ho)
  exact h ht

/-- Witness for C7 amended at a concrete operation sequence. -/
theorem C7_amended_witness :
    (reach [Op.add ⟨0, 0⟩ "BUG-1" "Alpha" ""]).current_project.isSome = true :=
  C7_amended [Op.add ⟨0, 0⟩ "BUG-1" "Alpha" ""] (by decide) (by decide)

/-! ## Cleanup of test data (C8, C9) -/

theorem length_filter_add_compl {α : Type} (p : α → Bool) (l : List α) :
    (l.filter p).length + (l.filter fun a => !p a).length = l.length := by
  induction l with
  | nil => rfl
  | cons x t ih => by_cases h : p x <;> simp [List.filter, h, ← ih] <;> omega

/-- C8 counterexample: on a state with no work entries and the single
project mapping `"TestProj"`, cleanup removes that mapping (an item is
removed) yet returns 0 and does not persist. -/
theorem C8_counterexample :
    (cleanup_test_data
        { project_mappings := [("TestProj", { name := "TestProj" })] }).state.project_mappings = []
    ∧ (cleanup_test_data
        { project_mappings := [("TestProj", { name := "TestProj" })] }).removed = 0
    ∧ (cleanup_test_data
        { project_mappings := [("TestProj", { name := "TestProj" })] }).saved = false := by
  decide

/-- C8 amended: cleanup keeps exactly the work entries without a marker
in ticket/project/details and exactly the project mappings without a
marker in the project name; it clears the whole in-progress pointer
(and `last_activity`) precisely when `current_ticket` is set, non-empty
and a marker occurs in `current_ticket` or `current_project`; the
returned count is the number of removed *work entries* only, and the
state is persisted iff at least one work entry was removed. -/
theorem C8_amended (s : AppState) (e : WorkEntry) (kv : String × ProjectMapping) :
    (e ∈ (cleanup_test_data s).state.work_entries ↔
      e ∈ s.work_entries ∧ entryIsTest e = false)
    ∧ (kv ∈ (cleanup_test_data s).state.project_mappings ↔
      kv ∈ s.project_mappings ∧ projectIsTest kv.1 = false)
    ∧ (cleanup_test_data s).removed = (s.work_entries.filter entryIsTest).length
    ∧ (cleanup_test_data s).saved = decide (0 < (cleanup_test_data s).removed)
    ∧ (cleanup_test_data s).state.current_ticket =
        (if currentIsTest s then none else s.current_ticket)
    ∧ (cleanup_test_data s).state.current_project =
        (if currentIsTest s then none else s.current_project)
    ∧ (cleanup_test_data s).state.current_details =
        (if currentIsTest s then none else s.current_details)
    ∧ (cleanup_test_data s).state.last_activity =
        (if currentIsTest s then none else s.last_activity) := by
  have hrem : (cleanup_test_data s).removed = (s.work_entries.filter entryIsTest).length := by
    have h := length_filter_add_compl entryIsTest s.work_entries
    simp only [cleanup_test_data]
    omega
  refine ⟨?_, ?_, hrem, rfl, rfl, rfl, rfl, rfl⟩
  · simp [cleanup_test_data, List.mem_filter]
  · simp [cleanup_test_data, List.mem_filter]

/-- C9: cleanup is idempotent on its count — run twice in direct
succession, the second call removes 0 entries. -/
theorem C9_cleanup_idempotent (s : AppState) :
    (cleanup_test_data (cleanup_test_data s).state).removed = 0 := by
  simp only [cleanup_test_data, List.filter_filter, Bool.and_self]
  omega

/-! ## Report content (C3) -/

/-- C3: for a non-empty selection the executive summary shows the total
hours `sum of minutes / 60`, the entry count and the distinct-project
count; inside each project section the ticket subsections are in
ascending lexicographic ticket order, each with that ticket's total
minutes and session count; the three-entry scenario yields totals 3.5
hours / 3 entries / 2 projects with "Alpha" showing "X-1" at 1.5 hours
over 2 sessions. -/
theorem C3_report_content (e0 : WorkEntry) (es : List WorkEntry) :
    (createReportContent (e0 :: es)).totalMinutes =
        ((e0 :: es).map WorkEntry.duration).sum
    ∧ hoursShown (createReportContent (e0 :: es)).totalMinutes =
        (((e0 :: es).map WorkEntry.duration).sum : ℚ) / 60
    ∧ (createReportContent (e0 :: es)).totalEntries = (e0 :: es).length
    ∧ (createReportContent (e0 :: es)).numProjects =
        ((e0 :: es).map WorkEntry.project).eraseDups.length
    ∧ List.Forall (fun ps : ProjectSection =>
        List.Sorted (fun a b => a ≤ b) (ps.tickets.map TicketSection.ticket))
        (createReportContent (e0 :: es)).sections
    ∧ List.Forall (fun ps : ProjectSection =>
        List.Forall (fun ts : TicketSection =>
          ts.totalMinutes =
            ((((e0 :: es).filter fun e => e.project == ps.name).filter
              fun e => e.ticket == ts.ticket).map WorkEntry.duration).sum
          ∧ ts.sessions =
            (((e0 :: es).filter fun e => e.project == ps.name).filter
              fun e => e.ticket == ts.ticket).length) ps.tickets)
        (createReportContent (e0 :: es)).sections
    ∧ hoursShown (createReportContent
        [({ timestamp := ⟨0, 540⟩, ticket := "X-1", project := "Alpha", duration := 60 } : WorkEntry),
         { timestamp := ⟨0, 600⟩, ticket := "X-1", project := "Alpha", duration := 30 },
         { timestamp := ⟨1, 540⟩, ticket := "Y-1", project := "Beta", duration := 120 }]).totalMinutes
        = 7 / 2
    ∧ (createReportContent
        [({ timestamp := ⟨0, 540⟩, ticket := "X-1", project := "Alpha", duration := 60 } : WorkEntry),
         { timestamp := ⟨0, 600⟩, ticket := "X-1", project := "Alpha", duration := 30 },
         { timestamp := ⟨1, 540⟩, ticket := "Y-1", project := "Beta", duration := 120 }]).totalEntries = 3
    ∧ (createReportContent
        [({ timestamp := ⟨0, 540⟩, ticket := "X-1", project := "Alpha", duration := 60 } : WorkEntry),
         { timestamp := ⟨0, 600⟩, ticket := "X-1", project := "Alpha", duration := 30 },
         { timestamp := ⟨1, 540⟩, ticket := "Y-1", project := "Beta", duration := 120 }]).numProjects = 2
    ∧ (createReportContent
        [({ timestamp := ⟨0, 540⟩, ticket := "X-1", project := "Alpha", duration := 60 } : WorkEntry),
         { timestamp := ⟨0, 600⟩, ticket := "X-1", project := "Alpha", duration := 30 },
         { timestamp := ⟨1, 540⟩, ticket := "Y-1", project := "Beta", duration := 120 }]).sections =
        [{ name := "Alpha", totalMinutes := 90,
           tickets := [{ ticket := "X-1", totalMinutes := 90, sessions := 2, details := [] }] },
         { name := "Beta", totalMinutes := 120,
           tickets := [{ ticket := "Y-1", totalMinutes := 120, sessions := 1, details := [] }] }]
    ∧ hoursShown 90 = 3 / 2 := by
  refine ⟨rfl, rfl, rfl, rfl, ?_, ?_, ?_, by decide, by decide, by decide, ?_⟩
  · rw [List.forall_iff_forall_mem]
    intro ps hps
    obtain ⟨p, _, rfl⟩ := List.mem_map.mp hps
    show List.Sorted _ ((mkProjectSection (e0 :: es) p).tickets.map TicketSection.ticket)
    unfold mkProjectSection
    simp only [List.map_map]
    have hid : (TicketSection.ticket ∘
        mkTicketSection ((e0 :: es).filter fun e => e.project == p)) = id :=
      funext fun t => rfl
    rw [hid, List.map_id]
    exact List.sorted_insertionSort _ _
  · rw [List.forall_iff_forall_mem]
    intro ps hps
    obtain ⟨p, _, rfl⟩ := List.mem_map.mp hps
    rw [List.forall_iff_forall_mem]
    intro ts hts
    obtain ⟨t, _, rfl⟩ := List.mem_map.mp hts
    exact ⟨rfl, rfl⟩
  · have h210 : (createReportContent
        [({ timestamp := ⟨0, 540⟩, ticket := "X-1", project := "Alpha", duration := 60 } : WorkEntry),
         { timestamp := ⟨0, 600⟩, ticket := "X-1", project := "Alpha", duration := 30 },
         { timestamp := ⟨1, 540⟩, ticket := "Y-1", project := "Beta", duration := 120 }]).totalMinutes
        = 210 := by decide
    rw [h210]
    unfold hoursShown
    norm_num
  · unfold hoursShown
    norm_num

end WeeklyReport
